import Mathlib

/-!
Verification of the eth-rewards-api service: a shallow embedding of the
reward-computation, block-classification and slot-validation logic of the
Go source (internal/handlers/blockreward.go, internal/services, internal/models),
together with theorems settling the specification claims.

Machine integers: the Go code uses math/big arbitrary-precision integers for
all reward arithmetic and uint64 for slots; we embed big.Int as Int and the
uint64 values as Nat with an explicit bound check where strconv.ParseUint
enforces one.  Fallible Go functions returning (T, error) are embedded as
Except String T, the String carrying the error message the code constructs.
-/

namespace EthRewards

/-- Value of an ASCII hexadecimal digit character, as accepted by Go's
math/big in base 16: 0-9, a-f and A-F. -/
def hexDigitVal (c : Char) : Option Nat :=
  if 48 ≤ c.toNat ∧ c.toNat ≤ 57 then some (c.toNat - 48)
  else if 97 ≤ c.toNat ∧ c.toNat ≤ 102 then some (c.toNat - 87)
  else if 65 ≤ c.toNat ∧ c.toNat ≤ 70 then some (c.toNat - 55)
  else none

/-- One step of reading a hexadecimal digit run left to right. -/
def hexFoldStep (acc : Option Nat) (c : Char) : Option Nat :=
  match acc, hexDigitVal c with
  | some a, some d => some (16 * a + d)
  | _, _ => none

/-- Value of a non-empty run of hexadecimal digit characters; none if the run
is empty or contains a non-digit. -/
def hexDigitsVal (cs : List Char) : Option Nat :=
  if cs.isEmpty then none
  else cs.foldl hexFoldStep (some 0)

/-- Modelled from the Go standard library: big.Int.SetString with base 16
(as called by hexToBigInt).  Accepts an optional leading sign
followed by a non-empty run of base-16 digits; underscores are rejected
because the base is not zero, and no base marker is permitted because the
base is given explicitly. -/
def setString16 (s : String) : Option Int :=
  match s.toList with
  | [] => none
  | c :: rest =>
    if c = '-' then (hexDigitsVal rest).map (fun n : Nat => -(n : Int))
    else if c = '+' then (hexDigitsVal rest).map (fun n : Nat => (n : Int))
    else (hexDigitsVal (c :: rest)).map (fun n : Nat => (n : Int))

/-- hexToBigInt from blockreward.go: requires byte length strictly greater
than 2 and the two leading characters 0 and x, then hands the remainder to
big.Int.SetString in base 16; any failure is an error value. -/
def hexToBigInt (hexStr : String) : Except String Int :=
  if hexStr.length > 2 ∧ hexStr.take 2 = "0x" then
    match setString16 (hexStr.drop 2) with
    | some i => .ok i
    | none => .error "failed to parse hex string"
  else .error "invalid hex format"

/-- Value of an ASCII decimal digit character. -/
def decDigitVal (c : Char) : Option Nat :=
  if 48 ≤ c.toNat ∧ c.toNat ≤ 57 then some (c.toNat - 48) else none

/-- One step of reading a decimal digit run left to right. -/
def decFoldStep (acc : Option Nat) (c : Char) : Option Nat :=
  match acc, decDigitVal c with
  | some a, some d => some (10 * a + d)
  | _, _ => none

/-- Value of a non-empty run of decimal digit characters. -/
def decDigitsVal (cs : List Char) : Option Nat :=
  if cs.isEmpty then none
  else cs.foldl decFoldStep (some 0)

/-- Modelled from the Go standard library: strconv.ParseUint(s, 10, 64) as
called by the handlers.  No sign is permitted, the digit run must be
non-empty and decimal, and the value must fit in 64 bits. -/
def parseUint64 (s : String) : Option Nat :=
  match decDigitsVal s.toList with
  | some n => if n < 2 ^ 64 then some n else none
  | none => none

/-- Lowercase hexadecimal rendering of a block number, as produced by
fmt.Sprintf with the 0x%x verb in GetBlockReward (Nat.toDigits 16 uses the
same lowercase digit alphabet as the Go verb). -/
def formatHex (n : Nat) : String :=
  "0x" ++ String.mk (Nat.toDigits 16 n)

/-- Decimal rendering of a big.Int by its String method: an optional minus
sign followed by the decimal digits of the absolute value. -/
def bigIntString (i : Int) : String :=
  if i < 0 then "-" ++ Nat.repr i.natAbs else Nat.repr i.natAbs

/-- ExecutionBlockTx from internal/models: a transaction of an execution
block.  The Go field names From and Type are Lean keywords and appear here
as fromAddr and txType; all other names are kept. -/
structure ExecutionBlockTx where
  blockHash : String
  blockNumber : String
  fromAddr : String
  gas : String
  gasPrice : String
  hash : String
  input : String
  nonce : String
  toAddr : String
  transactionIndex : String
  value : String
  txType : String
deriving Repr, DecidableEq

/-- The result object of ExecutionBlockFullResponse from internal/models. -/
structure ExecutionBlockResult where
  number : String
  baseFeePerGas : String
  extraData : String
  transactions : List ExecutionBlockTx
deriving Repr, DecidableEq

/-- ExecutionBlockFullResponse from internal/models. -/
structure ExecutionBlockFullResponse where
  result : ExecutionBlockResult
deriving Repr, DecidableEq

/-- The execution payload embedded in a beacon block (internal/models). -/
structure ExecutionPayload where
  block_number : String
  fee_recipient : String
  extra_data : String
  base_fee_per_gas : String
  gas_used : String
deriving Repr, DecidableEq

/-- The body of a beacon block message (internal/models). -/
structure BeaconBlockBody where
  execution_payload : ExecutionPayload
deriving Repr, DecidableEq

/-- The message of a beacon block (internal/models). -/
structure BeaconBlockMessage where
  body : BeaconBlockBody
deriving Repr, DecidableEq

/-- The data object of a beacon block response (internal/models). -/
structure BeaconBlockData where
  message : BeaconBlockMessage
deriving Repr, DecidableEq

/-- BeaconBlockResponse from internal/models. -/
structure BeaconBlockResponse where
  version : String
  data : BeaconBlockData
deriving Repr, DecidableEq

/-- The message of a beacon header (internal/models). -/
structure BeaconHeaderMessage where
  slot : String
deriving Repr, DecidableEq

/-- A beacon header (internal/models). -/
structure BeaconHeader where
  message : BeaconHeaderMessage
deriving Repr, DecidableEq

/-- One entry of the data list of BeaconHeadersResponse (internal/models). -/
structure BeaconHeaderEntry where
  header : BeaconHeader
deriving Repr, DecidableEq

/-- BeaconHeadersResponse from internal/models. -/
structure BeaconHeadersResponse where
  data : List BeaconHeaderEntry
deriving Repr, DecidableEq

/-- The data object of SyncCommitteeResponse (internal/models). -/
structure SyncCommitteeData where
  validators : List String
deriving Repr, DecidableEq

/-- SyncCommitteeResponse from internal/models. -/
structure SyncCommitteeResponse where
  execution_optimistic : Bool
  finalized : Bool
  data : SyncCommitteeData
deriving Repr, DecidableEq

/-- The body of the per-transaction loop of GetBlockReward (blockreward.go
lines 91-107): parse gasPrice and gas, skipping the transaction if either
fails, and add (gasPrice - baseFee) * gas to the accumulator exactly when
gasPrice compares strictly greater than baseFee. -/
def rewardStep (baseFee : Int) (acc : Int) (tx : ExecutionBlockTx) : Int :=
  match hexToBigInt tx.gasPrice with
  | .error _ => acc
  | .ok gasPrice =>
    match hexToBigInt tx.gas with
    | .error _ => acc
    | .ok gas =>
      if baseFee < gasPrice then acc + (gasPrice - baseFee) * gas else acc

/-- The totalReward accumulation loop of GetBlockReward (blockreward.go
lines 90-107), starting from big.NewInt(0). -/
def computeTotalReward (baseFee : Int) (txs : List ExecutionBlockTx) : Int :=
  txs.foldl (rewardStep baseFee) 0

/-- Wei-to-gwei conversion of GetBlockReward (blockreward.go lines 110-111):
big.Int.Div is Euclidean division, which for the positive divisor
1000000000 coincides with Int.ediv. -/
def rewardInGwei (totalReward : Int) : Int :=
  Int.ediv totalReward 1000000000

/-- Status classification of GetBlockReward (blockreward.go lines 114-117):
the Go len of the ExtraData string field, which holds the hex-encoded
extra-data exactly as returned by the node, compared against 20. -/
def blockStatus (extraData : String) : String :=
  if extraData.length > 20 then "relay" else "vanilla"

/-- The reward-calculation block of GetBlockReward (blockreward.go lines
84-123) applied to a decoded execution block: parse the base fee (fatal on
failure), accumulate the per-transaction rewards, convert to gwei and
classify the status; the pair is the (status, reward) payload of the 200
response. -/
def computeRewardResult (execBlock : ExecutionBlockFullResponse) :
    Except String (String × String) :=
  match hexToBigInt execBlock.result.baseFeePerGas with
  | .error _ => .error "invalid base fee"
  | .ok baseFee =>
    let totalReward := computeTotalReward baseFee execBlock.result.transactions
    .ok (blockStatus execBlock.result.extraData,
         bigIntString (rewardInGwei totalReward))

/-- The outcome of one upstream HTTP exchange as seen by a service function:
either the transport fails (Go http client error), or a response arrives
with a status code and a body whose JSON decoding either fails or yields a
value of the expected model type. -/
inductive FetchResult (α : Type) where
  | transportError (msg : String)
  | httpResponse (statusCode : Nat) (decoded : Except String α)
deriving Repr

/-- SLOTS_PER_EPOCH from internal/services: slots per epoch on mainnet. -/
def SLOTS_PER_EPOCH : Nat := 32

namespace ExecutionService

/-- GetExecutionBlockByNumber from internal/services: given the upstream
outcome of the eth_getBlockByNumber POST for each hex block number, fail on
transport error, on a non-200 status, on decode failure, and on an empty
Number field in the decoded result (block not found); otherwise return the
decoded response. -/
def GetExecutionBlockByNumber
    (upstream : String → FetchResult ExecutionBlockFullResponse)
    (blockNumberHex : String) : Except String ExecutionBlockFullResponse :=
  match upstream blockNumberHex with
  | .transportError m => .error m
  | .httpResponse code decoded =>
    if code ≠ 200 then .error ("unexpected status code: " ++ toString code)
    else
      match decoded with
      | .error e => .error e
      | .ok blockResp =>
        if blockResp.result.number = "" then
          .error "block not found on execution layer"
        else .ok blockResp

end ExecutionService

namespace ConsensusService

/-- GetHeadSlot from internal/services: fetch the beacon headers, fail on
transport error, non-200 status, decode failure or an empty data list, and
otherwise parse the slot string of the first header with
strconv.ParseUint(s, 10, 64); the text of the strconv error is abstracted
as a fixed message, the handlers only test the error for being non-nil. -/
def GetHeadSlot (upstream : FetchResult BeaconHeadersResponse) :
    Except String Nat :=
  match upstream with
  | .transportError m => .error m
  | .httpResponse code decoded =>
    if code ≠ 200 then .error ("unexpected status code: " ++ toString code)
    else
      match decoded with
      | .error e => .error e
      | .ok headersResp =>
        match headersResp.data with
        | [] => .error "no header data returned"
        | entry :: _ =>
          match parseUint64 entry.header.message.slot with
          | none => .error "head slot conversion failed"
          | some headSlot => .ok headSlot

/-- GetBeaconBlockBySlot from internal/services: fetch the beacon block of
the slot, map a 404 to the distinguished error value, fail on transport
error, other non-200 status or decode failure, and otherwise return the
decoded response. -/
def GetBeaconBlockBySlot (upstream : Nat → FetchResult BeaconBlockResponse)
    (slot : Nat) : Except String BeaconBlockResponse :=
  match upstream slot with
  | .transportError m => .error m
  | .httpResponse code decoded =>
    if code = 404 then .error "block not found"
    else if code ≠ 200 then .error ("unexpected status code " ++ toString code)
    else decoded

/-- The state_id and epoch with which GetSyncCommitteeDuties queries the
sync_committees endpoint for a slot: epoch = slot / SLOTS_PER_EPOCH and
state_id = epoch * SLOTS_PER_EPOCH, the first slot of the epoch. -/
def syncCommitteeQuery (slot : Nat) : Nat × Nat :=
  (slot / SLOTS_PER_EPOCH * SLOTS_PER_EPOCH, slot / SLOTS_PER_EPOCH)

/-- GetSyncCommitteeDuties from internal/services: derive epoch and
state_id from the slot, fetch the sync committees at that state, map a 404
to the distinguished error value, fail on transport error, other non-200
status or decode failure, and otherwise return the validator list. -/
def GetSyncCommitteeDuties
    (upstream : Nat → Nat → FetchResult SyncCommitteeResponse)
    (slot : Nat) : Except String (List String) :=
  let epoch := slot / SLOTS_PER_EPOCH
  let state_id := epoch * SLOTS_PER_EPOCH
  match upstream state_id epoch with
  | .transportError m => .error m
  | .httpResponse code decoded =>
    if code = 404 then .error "sync committee duties not found for this slot"
    else if code ≠ 200 then
      .error ("unexpected status code " ++ toString code ++
        " from sync duties endpoint")
    else
      match decoded with
      | .error e => .error e
      | .ok scResp => .ok scResp.data.validators

end ConsensusService

/-- A JSON value appearing in the gin.H response bodies of the two
handlers: a string, or a list of strings (the validators array). -/
inductive GinValue where
  | str (s : String)
  | strList (l : List String)
deriving Repr, DecidableEq

/-- An HTTP response produced with c.JSON: status code and gin.H body as a
key-value list. -/
structure GinResponse where
  statusCode : Nat
  body : List (String × GinValue)
deriving Repr, DecidableEq

/-- One upstream call issued while serving a request, identified by the
endpoint and the arguments baked into the URL or JSON-RPC params. -/
inductive UpstreamCall where
  | getHeaders
  | getBeaconBlock (slot : Nat)
  | getExecutionBlock (blockNumberHex : String)
  | getSyncCommittees (state_id : Nat) (epoch : Nat)
deriving Repr, DecidableEq

/-- The upstream call GetSyncCommitteeDuties issues for a slot. -/
def syncCommitteeCall (slot : Nat) : UpstreamCall :=
  .getSyncCommittees (ConsensusService.syncCommitteeQuery slot).1
    (ConsensusService.syncCommitteeQuery slot).2

/-- The upstream world a request is served against: the decoded outcome of
every possible upstream exchange.  Requests are stateless, so one fixed
assignment per request suffices. -/
structure ServiceEnv where
  headers : FetchResult BeaconHeadersResponse
  beaconBlocks : Nat → FetchResult BeaconBlockResponse
  execBlocks : String → FetchResult ExecutionBlockFullResponse
  syncCommittees : Nat → Nat → FetchResult SyncCommitteeResponse

/-- GetBlockReward from internal/handlers/blockreward.go, returning the
response written with c.JSON together with the list of upstream calls
issued, in order.  Control flow follows the source line by line: parse the
slot parameter, fetch and compare the head slot, fetch the beacon block,
extract and convert the execution block number, fetch the execution block,
then compute the reward and status. -/
def GetBlockReward (env : ServiceEnv) (slotParam : String) :
    GinResponse × List UpstreamCall :=
  match parseUint64 slotParam with
  | none => (⟨400, [("error", .str "invalid slot parameter")]⟩, [])
  | some slot =>
    match ConsensusService.GetHeadSlot env.headers with
    | .error _ => (⟨500, [("error", .str "failed to fetch head slot")]⟩,
        [.getHeaders])
    | .ok headSlot =>
      if slot > headSlot then
        (⟨400, [("error", .str "requested slot is in the future")]⟩,
         [.getHeaders])
      else
        match ConsensusService.GetBeaconBlockBySlot env.beaconBlocks slot with
        | .error e =>
          if e = "block not found" then
            (⟨404, [("error", .str "slot not found/missed")]⟩,
             [.getHeaders, .getBeaconBlock slot])
          else
            (⟨500, [("error", .str "failed to get beacon block")]⟩,
             [.getHeaders, .getBeaconBlock slot])
        | .ok beaconBlock =>
          let blockNumberDecimal :=
            beaconBlock.data.message.body.execution_payload.block_number
          if blockNumberDecimal = "" then
            (⟨404, [("error", .str "no execution payload for this slot")]⟩,
             [.getHeaders, .getBeaconBlock slot])
          else
            match parseUint64 blockNumberDecimal with
            | none =>
              (⟨500, [("error", .str "invalid block number format")]⟩,
               [.getHeaders, .getBeaconBlock slot])
            | some blockNumberInt =>
              let blockNumberHex := formatHex blockNumberInt
              match ExecutionService.GetExecutionBlockByNumber env.execBlocks
                  blockNumberHex with
              | .error _ =>
                (⟨500, [("error", .str "failed to get execution block")]⟩,
                 [.getHeaders, .getBeaconBlock slot,
                  .getExecutionBlock blockNumberHex])
              | .ok execBlock =>
                match hexToBigInt execBlock.result.baseFeePerGas with
                | .error _ =>
                  (⟨500, [("error", .str "invalid base fee")]⟩,
                   [.getHeaders, .getBeaconBlock slot,
                    .getExecutionBlock blockNumberHex])
                | .ok baseFee =>
                  let totalReward :=
                    computeTotalReward baseFee execBlock.result.transactions
                  (⟨200, [("status", .str (blockStatus
                        execBlock.result.extraData)),
                      ("reward", .str (bigIntString (rewardInGwei
                        totalReward)))]⟩,
                   [.getHeaders, .getBeaconBlock slot,
                    .getExecutionBlock blockNumberHex])

/-- GetSyncDuties from internal/handlers/blockreward.go, returning the
response written with c.JSON together with the list of upstream calls
issued, in order: parse the slot parameter, fetch and compare the head
slot, then fetch the sync committee duties. -/
def GetSyncDuties (env : ServiceEnv) (slotParam : String) :
    GinResponse × List UpstreamCall :=
  match parseUint64 slotParam with
  | none => (⟨400, [("error", .str "invalid slot parameter")]⟩, [])
  | some slot =>
    match ConsensusService.GetHeadSlot env.headers with
    | .error _ => (⟨500, [("error", .str "failed to fetch head slot")]⟩,
        [.getHeaders])
    | .ok headSlot =>
      if slot > headSlot then
        (⟨400, [("error", .str "requested slot is too far in the future")]⟩,
         [.getHeaders])
      else
        match ConsensusService.GetSyncCommitteeDuties env.syncCommittees
            slot with
        | .error e =>
          if e = "sync committee duties not found for this slot" then
            (⟨404, [("error", .str "sync committee duties not found")]⟩,
             [.getHeaders, syncCommitteeCall slot])
          else
            (⟨500, [("error", .str "failed to get sync committee duties")]⟩,
             [.getHeaders, syncCommitteeCall slot])
        | .ok validators =>
          (⟨200, [("validators", .strList validators)]⟩,
           [.getHeaders, syncCommitteeCall slot])

/-! Specification-side definitions, used to compare the embedded code
against the wording of the specification and claims. -/

/-- Following the wording of the specification: the contribution of one
transaction to the total reward — defined exactly when gasPrice and gas
both parse and gasPrice is strictly greater than the base fee, in which
case it is (gasPrice - baseFee) * gas. -/
def specTxContribution (baseFee : Int) (tx : ExecutionBlockTx) : Option Int :=
  match hexToBigInt tx.gasPrice, hexToBigInt tx.gas with
  | .ok gasPrice, .ok gas =>
    if baseFee < gasPrice then some ((gasPrice - baseFee) * gas) else none
  | _, _ => none

/-- Following the wording of the claim about hexToBigInt: a string that
big.Int.SetString accepts in base 16, namely an optional leading sign
followed by at least one base-16 digit. -/
def isBase16Literal (s : String) : Bool :=
  match s.toList with
  | [] => false
  | c :: rest =>
    if c = '-' ∨ c = '+' then
      !rest.isEmpty && rest.all (fun d => (hexDigitVal d).isSome)
    else
      (c :: rest).all (fun d => (hexDigitVal d).isSome)

/-- The lowercase hex character of a digit value below 16 (0-9 then a-f). -/
def hexDigitChar (n : Nat) : Char :=
  if n < 10 then Char.ofNat (48 + n) else Char.ofNat (87 + n)

/-- The hex-string form in which the execution layer returns a raw
extra-data byte sequence, and hence the form in which the ExtraData field
of a decoded execution block holds it: 0x followed by two lowercase hex
characters per byte.  This relates the byte-level extra-data the
specification speaks about to the string the code measures. -/
def hexEncodeBytes (bytes : List Nat) : String :=
  "0x" ++ String.mk
    (List.flatten (bytes.map
      (fun b => [hexDigitChar (b / 16 % 16), hexDigitChar (b % 16)])))

/-! Concrete fixtures used by counterexamples and witnesses. -/

/-- A transaction whose gas field parses to the negative value -1 thanks to
the sign big.Int.SetString accepts, with gasPrice parsing to 1. -/
def negGasTx : ExecutionBlockTx :=
  ⟨"", "", "", "0x-1", "0x1", "", "", "", "", "", "", ""⟩

/-- An execution block with base fee 0 holding only negGasTx. -/
def negGasBlock : ExecutionBlockFullResponse :=
  ⟨⟨"0x1", "0x0", "0x", [negGasTx]⟩⟩

/-- A transaction whose gasPrice and gas parse but whose gasPrice, 1, does
not exceed a base fee of 5. -/
def lowPriceTx : ExecutionBlockTx :=
  ⟨"", "", "", "0x1", "0x1", "", "", "", "", "", "", ""⟩

/-- A transaction paying above the base fee: gasPrice 3, gas 2. -/
def payingTx : ExecutionBlockTx :=
  ⟨"", "", "", "0x2", "0x3", "", "", "", "", "", "", ""⟩

/-- A transaction whose gasPrice field fails to parse. -/
def badPriceTx : ExecutionBlockTx :=
  ⟨"", "", "", "0x1", "zzz", "", "", "", "", "", "", ""⟩

/-- An execution block with an empty transaction list whose extra-data
string is longer than 20 characters. -/
def zeroTxRelayBlock : ExecutionBlockFullResponse :=
  ⟨⟨"0x1", "0x0", "0xaabbccddeeff00112233445566", []⟩⟩

/-- An execution block with an empty transaction list and a short
extra-data string. -/
def zeroTxVanillaBlock : ExecutionBlockFullResponse :=
  ⟨⟨"0x1", "0x0", "0x", []⟩⟩

/-- A beacon headers response whose first header carries slot 10. -/
def hdrsResp : BeaconHeadersResponse := ⟨[⟨⟨⟨"10"⟩⟩⟩]⟩

/-- A beacon headers response whose first header carries slot 3. -/
def hdrsResp3 : BeaconHeadersResponse := ⟨[⟨⟨⟨"3"⟩⟩⟩]⟩

/-- A beacon block whose execution payload points at block number 5. -/
def beaconResp : BeaconBlockResponse :=
  ⟨"deneb", ⟨⟨⟨⟨"5", "0xfee", "0xdead", "7", "21000"⟩⟩⟩⟩⟩

/-- A decoded execution block response whose Number field is empty: the
situation the execution service reports as block not found. -/
def emptyNumBlock : ExecutionBlockFullResponse := ⟨⟨"", "0x0", "0x", []⟩⟩

/-- An upstream world where the head slot is 10, the beacon block of every
slot points at execution block number 5, and the execution layer answers
every block query with a decoded response whose Number field is empty. -/
def envC7 : ServiceEnv :=
  ⟨.httpResponse 200 (.ok hdrsResp),
   fun _ => .httpResponse 200 (.ok beaconResp),
   fun _ => .httpResponse 200 (.ok emptyNumBlock),
   fun _ _ => .transportError "unused"⟩

/-- An upstream world where the head slot is 3 and every other upstream
exchange fails at transport level: requests rejected before any fetch
never observe those failures. -/
def envHead3 : ServiceEnv :=
  ⟨.httpResponse 200 (.ok hdrsResp3),
   fun _ => .transportError "beacon unavailable",
   fun _ => .transportError "execution unavailable",
   fun _ _ => .transportError "sync unavailable"⟩

/-- An upstream world answering every sync-committee query with the
single-validator list 42. -/
def syncUpstreamC9 : Nat → Nat → FetchResult SyncCommitteeResponse :=
  fun _ _ => .httpResponse 200 (.ok ⟨false, false, ⟨["42"]⟩⟩)


/-! Helper lemmas. -/

lemma rewardStep_eq_getD (baseFee acc : Int) (tx : ExecutionBlockTx) :
    rewardStep baseFee acc tx = acc + (specTxContribution baseFee tx).getD 0 := by
  unfold rewardStep specTxContribution
  cases hexToBigInt tx.gasPrice <;> cases hexToBigInt tx.gas <;> simp
  split <;> simp

lemma rewardStep_bad (baseFee acc : Int) (tx : ExecutionBlockTx)
    (hbad : (hexToBigInt tx.gasPrice).isOk = false
      ∨ (hexToBigInt tx.gas).isOk = false) :
    rewardStep baseFee acc tx = acc := by
  unfold rewardStep
  cases hp : hexToBigInt tx.gasPrice <;> cases hg : hexToBigInt tx.gas <;>
    simp_all [Except.isOk, Except.toBool]

lemma foldl_rewardStep (baseFee : Int) (txs : List ExecutionBlockTx)
    (acc : Int) :
    List.foldl (rewardStep baseFee) acc txs
      = acc + (txs.filterMap (specTxContribution baseFee)).sum := by
  induction txs generalizing acc with
  | nil => simp
  | cons tx txs ih =>
    rw [List.foldl_cons, ih, rewardStep_eq_getD]
    cases h : specTxContribution baseFee tx
    · simp [List.filterMap_cons, h]
    · simp [List.filterMap_cons, h]
      ring

lemma computeTotalReward_eq_sum (baseFee : Int) (txs : List ExecutionBlockTx) :
    computeTotalReward baseFee txs
      = (txs.filterMap (specTxContribution baseFee)).sum := by
  unfold computeTotalReward
  rw [foldl_rewardStep]
  simp

lemma specTxContribution_nonneg (baseFee v : Int) (tx : ExecutionBlockTx)
    (hgas : ∀ g, hexToBigInt tx.gas = .ok g → 0 ≤ g)
    (hv : specTxContribution baseFee tx = some v) : 0 ≤ v := by
  unfold specTxContribution at hv
  cases hp : hexToBigInt tx.gasPrice <;> rw [hp] at hv <;>
    cases hg : hexToBigInt tx.gas <;> rw [hg] at hv <;> simp at hv
  rcases hv with ⟨hlt, rfl⟩
  exact mul_nonneg (by omega) (hgas _ hg)

lemma specTxContribution_none_of_le (baseFee : Int) (tx : ExecutionBlockTx)
    (h : ∀ p, hexToBigInt tx.gasPrice = .ok p → p ≤ baseFee) :
    specTxContribution baseFee tx = none := by
  unfold specTxContribution
  cases hp : hexToBigInt tx.gasPrice <;> cases hg : hexToBigInt tx.gas <;> simp
  have := h _ hp
  omega

lemma foldl_hexFoldStep_none (cs : List Char) :
    List.foldl hexFoldStep none cs = none := by
  induction cs with
  | nil => rfl
  | cons c cs ih =>
    rw [List.foldl_cons]
    have : hexFoldStep none c = none := by
      unfold hexFoldStep; cases hexDigitVal c <;> rfl
    rw [this, ih]

lemma foldl_hexFoldStep_isSome (cs : List Char) (a : Nat) :
    (List.foldl hexFoldStep (some a) cs).isSome
      = cs.all (fun d => (hexDigitVal d).isSome) := by
  induction cs generalizing a with
  | nil => rfl
  | cons c cs ih =>
    rw [List.foldl_cons, List.all_cons]
    cases h : hexDigitVal c with
    | none =>
      have hstep : hexFoldStep (some a) c = none := by
        unfold hexFoldStep; rw [h]
      rw [hstep, foldl_hexFoldStep_none]
      simp [h]
    | some d =>
      have hstep : hexFoldStep (some a) c = some (16 * a + d) := by
        unfold hexFoldStep; rw [h]
      rw [hstep, ih]
      simp [h]

lemma hexDigitsVal_isSome (cs : List Char) :
    (hexDigitsVal cs).isSome
      = (!cs.isEmpty && cs.all (fun d => (hexDigitVal d).isSome)) := by
  unfold hexDigitsVal
  cases cs with
  | nil => rfl
  | cons c cs =>
    simp only [List.isEmpty_cons, Bool.not_false, Bool.true_and]
    rw [if_neg (by simp), foldl_hexFoldStep_isSome]

lemma setString16_isSome (s : String) :
    (setString16 s).isSome = isBase16Literal s := by
  unfold setString16 isBase16Literal
  cases h : s.toList with
  | nil => rfl
  | cons c rest =>
    dsimp only
    by_cases hm : c = '-'
    · rw [if_pos hm, if_pos (Or.inl hm)]
      rw [← hexDigitsVal_isSome]
      cases hexDigitsVal rest <;> rfl
    · by_cases hp : c = '+'
      · rw [if_neg hm, if_pos hp, if_pos (Or.inr hp)]
        rw [← hexDigitsVal_isSome]
        cases hexDigitsVal rest <;> rfl
      · rw [if_neg hm, if_neg hp, if_neg (by tauto)]
        simp only [List.all_cons]
        have hr := hexDigitsVal_isSome (c :: rest)
        simp only [List.isEmpty_cons, Bool.not_false, Bool.true_and,
          List.all_cons] at hr
        rw [← hr]
        cases hexDigitsVal (c :: rest) <;> rfl

lemma flatten_pairs_length (bs : List Nat) :
    (List.flatten (bs.map
      (fun b => [hexDigitChar (b / 16 % 16), hexDigitChar (b % 16)]))).length
      = 2 * bs.length := by
  induction bs with
  | nil => rfl
  | cons b bs ih =>
    rw [List.map_cons, List.flatten_cons, List.length_append, ih]
    simp only [List.length_cons, List.length_nil]
    omega

lemma hexEncodeBytes_length (bytes : List Nat) :
    (hexEncodeBytes bytes).length = 2 + 2 * bytes.length := by
  have h2 : (hexEncodeBytes bytes).length
      = 2 + (List.flatten (bytes.map
        (fun b => [hexDigitChar (b / 16 % 16), hexDigitChar (b % 16)]))).length := by
    unfold hexEncodeBytes
    rw [String.length_append]
    rfl
  rw [h2, flatten_pairs_length]

/-! Claim theorems. -/

/-- Claim C1 counterexample: the claim that status is relay exactly when the
decoded extra-data byte length exceeds 20 is false: the code measures the
hex string itself, so already 20 decoded bytes (a 42-character string)
classify as relay. -/
theorem C1_counterexample :
    ¬ (∀ bytes : List Nat,
        blockStatus (hexEncodeBytes bytes) = "relay" ↔ 20 < bytes.length) := by
  intro h
  have hlen : (hexEncodeBytes (List.replicate 20 (0 : Nat))).length = 42 := by
    rw [hexEncodeBytes_length]; simp
  have hs : blockStatus (hexEncodeBytes (List.replicate 20 (0 : Nat)))
      = "relay" := by
    unfold blockStatus
    rw [hlen]
    norm_num
  have := (h (List.replicate 20 0)).mp hs
  simp at this

/-- Claim C1, amended: the computed status is relay if and only if the
extra-data string as returned by the node (hex characters, 0x included) is
longer than 20 characters; on a hex-encoded byte sequence this means relay
exactly when the block carries strictly more than 9 decoded bytes of
extra-data, so 20 decoded bytes yield relay, not vanilla. -/
theorem C1_status_threshold :
    (∀ extraData : String,
      blockStatus extraData = "relay" ↔ 20 < extraData.length)
    ∧ (∀ bytes : List Nat,
        blockStatus (hexEncodeBytes bytes)
          = if 9 < bytes.length then "relay" else "vanilla") := by
  constructor
  · intro s
    unfold blockStatus
    by_cases h : 20 < s.length
    · rw [if_pos h]
      exact iff_of_true rfl h
    · rw [if_neg h]
      exact iff_of_false (by decide) h
  · intro bytes
    unfold blockStatus
    by_cases h : 9 < bytes.length
    · have hc : (hexEncodeBytes bytes).length > 20 := by
        rw [hexEncodeBytes_length]; omega
      rw [if_pos hc, if_pos h]
    · have hc : ¬ (hexEncodeBytes bytes).length > 20 := by
        rw [hexEncodeBytes_length]; omega
      rw [if_neg hc, if_neg h]

/-- Claim C2 counterexample: with base fee 0 and one transaction whose gas
field reads 0x-1 (a sign big.Int.SetString accepts), the computed reward is
the negative value -1 wei, reported as the string -1; the claim that the
reward is non-negative for every gas and gasPrice string is false. -/
theorem C2_counterexample :
    computeTotalReward 0 negGasBlock.result.transactions = -1
    ∧ rewardInGwei (computeTotalReward 0 negGasBlock.result.transactions) = -1
    ∧ computeRewardResult negGasBlock = .ok ("vanilla", "-1")
    ∧ ¬ (0 : Int) ≤ -1 :=
  ⟨rfl, rfl, rfl, by decide⟩

/-- Claim C2, amended: the computed reward is non-negative for every base
fee and every transaction list in which each gas field that parses at all
parses to a non-negative value (in particular for every genuine hex
quantity, which carries no sign). -/
theorem C2_reward_nonneg (baseFee : Int) (txs : List ExecutionBlockTx)
    (hgas : ∀ tx ∈ txs, ∀ g, hexToBigInt tx.gas = .ok g → 0 ≤ g) :
    0 ≤ computeTotalReward baseFee txs
    ∧ 0 ≤ rewardInGwei (computeTotalReward baseFee txs) := by
  have htot : 0 ≤ computeTotalReward baseFee txs := by
    rw [computeTotalReward_eq_sum]
    apply List.sum_nonneg
    intro v hv
    rw [List.mem_filterMap] at hv
    rcases hv with ⟨tx, htx, hc⟩
    exact specTxContribution_nonneg baseFee v tx (hgas tx htx) hc
  exact ⟨htot, Int.ediv_nonneg htot (by decide)⟩

/-- Claim C2 witness: the amended non-negativity theorem applied to a
concrete block with one above-base-fee transaction. -/
theorem C2_witness :
    0 ≤ computeTotalReward 1 [payingTx]
    ∧ 0 ≤ rewardInGwei (computeTotalReward 1 [payingTx]) := by
  refine C2_reward_nonneg 1 [payingTx] ?_
  intro tx htx g hg
  simp only [List.mem_singleton] at htx
  subst htx
  have h1 : hexToBigInt payingTx.gas = Except.ok 2 := rfl
  rw [h1] at hg
  injection hg with h2
  omega

/-- Claim C3: for any parsed base fee, the total reward in wei is the sum,
over exactly those transactions whose gasPrice and gas both parse and whose
gasPrice strictly exceeds the base fee, of (gasPrice - baseFee) * gas; and
when every transaction that parses has gasPrice at most the base fee the
total reward is zero. -/
theorem C3_reward_is_priority_fee_sum (baseFee : Int)
    (txs : List ExecutionBlockTx) :
    computeTotalReward baseFee txs
      = (txs.filterMap (specTxContribution baseFee)).sum
    ∧ ((∀ tx ∈ txs, ∀ p, hexToBigInt tx.gasPrice = .ok p → p ≤ baseFee) →
        computeTotalReward baseFee txs = 0) := by
  refine ⟨computeTotalReward_eq_sum baseFee txs, fun h => ?_⟩
  rw [computeTotalReward_eq_sum]
  have hnil : txs.filterMap (specTxContribution baseFee) = [] := by
    rw [List.filterMap_eq_nil_iff]
    intro tx htx
    exact specTxContribution_none_of_le baseFee tx (fun p hp => h tx htx p hp)
  rw [hnil]
  rfl

/-- Claim C3 witness: the sum theorem applied to a block whose only
transaction pays exactly the base fee, yielding reward zero. -/
theorem C3_witness : computeTotalReward 5 [lowPriceTx] = 0 := by
  refine (C3_reward_is_priority_fee_sum 5 [lowPriceTx]).2 ?_
  intro tx htx p hp
  simp only [List.mem_singleton] at htx
  subst htx
  have h1 : hexToBigInt lowPriceTx.gasPrice = Except.ok 1 := rfl
  rw [h1] at hp
  injection hp with h2
  omega

/-- Claim C4: a transaction whose gasPrice or gas fails to parse is
excluded from the reward sum without failing the computation: the result
over a list containing it equals the result over the list with it removed,
and the computation still succeeds. -/
theorem C4_bad_tx_skipped (number bf extra : String) (f : Int)
    (pre post : List ExecutionBlockTx) (bad : ExecutionBlockTx)
    (hbf : hexToBigInt bf = .ok f)
    (hbad : (hexToBigInt bad.gasPrice).isOk = false
      ∨ (hexToBigInt bad.gas).isOk = false) :
    computeRewardResult ⟨⟨number, bf, extra, pre ++ bad :: post⟩⟩
      = computeRewardResult ⟨⟨number, bf, extra, pre ++ post⟩⟩
    ∧ (computeRewardResult ⟨⟨number, bf, extra, pre ++ bad :: post⟩⟩).isOk
        = true := by
  have htot : computeTotalReward f (pre ++ bad :: post)
      = computeTotalReward f (pre ++ post) := by
    unfold computeTotalReward
    rw [List.foldl_append, List.foldl_append, List.foldl_cons,
      rewardStep_bad f _ bad hbad]
  constructor
  · unfold computeRewardResult
    simp only [hbf]
    rw [htot]
  · unfold computeRewardResult
    simp only [hbf]
    rfl

/-- Claim C4 witness: the skip theorem applied to a concrete block holding
one unparseable-gasPrice transaction next to one paying transaction. -/
theorem C4_witness :
    computeRewardResult ⟨⟨"0x1", "0x0", "0x", [] ++ badPriceTx :: [payingTx]⟩⟩
      = computeRewardResult ⟨⟨"0x1", "0x0", "0x", [] ++ [payingTx]⟩⟩
    ∧ (computeRewardResult ⟨⟨"0x1", "0x0", "0x",
        [] ++ badPriceTx :: [payingTx]⟩⟩).isOk = true :=
  C4_bad_tx_skipped "0x1" "0x0" "0x" 0 [] [payingTx] badPriceTx rfl
    (Or.inl rfl)

/-- Claim C5: for every non-negative total in wei the gwei figure is the
truncating integer division by 1000000000, and the concrete total
1999999999 wei renders as the string 1. -/
theorem C5_gwei_truncating_division :
    (∀ w : Int, 0 ≤ w → rewardInGwei w = ((w.toNat / 1000000000 : Nat) : Int))
    ∧ bigIntString (rewardInGwei 1999999999) = "1" := by
  constructor
  · intro w hw
    obtain ⟨n, rfl⟩ := Int.eq_ofNat_of_zero_le hw
    rfl
  · rfl

/-- Claim C5 witness: the truncation theorem applied at 1999999999 wei. -/
theorem C5_witness :
    rewardInGwei 1999999999 = ((1999999999 / 1000000000 : Nat) : Int) :=
  C5_gwei_truncating_division.1 1999999999 (by decide)

/-- Claim C6 counterexample: a block with zero transactions but an
extra-data string longer than 20 characters computes reward 0 with status
relay, so the claim that every zero-transaction block is vanilla is
false. -/
theorem C6_counterexample :
    zeroTxRelayBlock.result.transactions = []
    ∧ computeRewardResult zeroTxRelayBlock = .ok ("relay", "0")
    ∧ "relay" ≠ "vanilla" :=
  ⟨rfl, rfl, by decide⟩

/-- Claim C6, amended: a block with zero transactions and a parsed base
fee computes reward 0, and its status is vanilla exactly when the
extra-data string is at most 20 characters long: the status is independent
of the transaction list. -/
theorem C6_zero_tx_reward (b : ExecutionBlockFullResponse) (f : Int)
    (htx : b.result.transactions = [])
    (hbf : hexToBigInt b.result.baseFeePerGas = .ok f) :
    computeRewardResult b = .ok (blockStatus b.result.extraData, "0")
    ∧ (blockStatus b.result.extraData = "vanilla"
        ↔ b.result.extraData.length ≤ 20) := by
  constructor
  · unfold computeRewardResult
    rw [hbf, htx]
    show Except.ok (blockStatus b.result.extraData,
        bigIntString (rewardInGwei (computeTotalReward f [])))
      = Except.ok (blockStatus b.result.extraData, "0")
    have h0 : computeTotalReward f [] = (0 : Int) := rfl
    rw [h0]
    rfl
  · unfold blockStatus
    by_cases h : 20 < b.result.extraData.length
    · rw [if_pos h]
      exact iff_of_false (by decide) (by omega)
    · rw [if_neg h]
      exact iff_of_true rfl (by omega)
  
/-- Claim C6 witness: the amended theorem applied to a concrete empty
block with a short extra-data string. -/
theorem C6_witness :
    computeRewardResult zeroTxVanillaBlock
      = .ok (blockStatus zeroTxVanillaBlock.result.extraData, "0")
    ∧ (blockStatus zeroTxVanillaBlock.result.extraData = "vanilla"
        ↔ zeroTxVanillaBlock.result.extraData.length ≤ 20) :=
  C6_zero_tx_reward zeroTxVanillaBlock 0 rfl rfl

/-- Claim C9: the sync-committee duties query derives epoch = slot / 32
and queries with state_id = epoch * 32 and that epoch, so two slots of the
same epoch issue the identical upstream request and, against the same
upstream world, return the identical validator sequence. -/
theorem C9_epoch_aligned_query (slot slot2 : Nat)
    (upstream : Nat → Nat → FetchResult SyncCommitteeResponse)
    (hsame : slot / SLOTS_PER_EPOCH = slot2 / SLOTS_PER_EPOCH) :
    ConsensusService.syncCommitteeQuery slot
      = (slot / SLOTS_PER_EPOCH * SLOTS_PER_EPOCH, slot / SLOTS_PER_EPOCH)
    ∧ syncCommitteeCall slot = syncCommitteeCall slot2
    ∧ ConsensusService.GetSyncCommitteeDuties upstream slot
      = ConsensusService.GetSyncCommitteeDuties upstream slot2 := by
  refine ⟨rfl, ?_, ?_⟩
  · unfold syncCommitteeCall ConsensusService.syncCommitteeQuery
    rw [hsame]
  · unfold ConsensusService.GetSyncCommitteeDuties
    rw [hsame]

/-- Claim C9 witness: slots 33 and 34 lie in epoch 1 and get the identical
validator sequence from the same upstream world. -/
theorem C9_witness :
    ConsensusService.GetSyncCommitteeDuties syncUpstreamC9 33
      = ConsensusService.GetSyncCommitteeDuties syncUpstreamC9 34 :=
  (C9_epoch_aligned_query 33 34 syncUpstreamC9 rfl).2.2

/-- Claim C10: hexToBigInt succeeds exactly on strings longer than 2
characters that start with 0x (lowercase x only) and whose remainder is a
base-16 literal as big.Int.SetString accepts it, an optional sign included;
the bare 0x, an uppercase-X string and an unadorned hex string all yield
error values, and a signed literal parses to a negative integer. -/
theorem C10_hexToBigInt_domain :
    (∀ s : String, (hexToBigInt s).isOk = true
      ↔ 2 < s.length ∧ s.take 2 = "0x" ∧ isBase16Literal (s.drop 2) = true)
    ∧ hexToBigInt "0x" = .error "invalid hex format"
    ∧ hexToBigInt "0X1f" = .error "invalid hex format"
    ∧ hexToBigInt "1f" = .error "invalid hex format"
    ∧ hexToBigInt "0x-a" = .ok (-10) := by
  refine ⟨?_, rfl, rfl, rfl, rfl⟩
  intro s
  unfold hexToBigInt
  by_cases h : s.length > 2 ∧ s.take 2 = "0x"
  · rw [if_pos h]
    cases hss : setString16 (s.drop 2) with
    | some i =>
      constructor
      · intro _
        refine ⟨h.1, h.2, ?_⟩
        rw [← setString16_isSome, hss]
        rfl
      · intro _
        rfl
    | none =>
      constructor
      · intro habs
        cases habs
      · rintro ⟨_, _, hlit⟩
        rw [← setString16_isSome, hss] at hlit
        cases hlit
  · rw [if_neg h]
    constructor
    · intro habs
      cases habs
    · rintro ⟨h1, h2, _⟩
      exact absurd ⟨h1, h2⟩ h

/-- Claim C7 counterexample: in a world where the execution layer answers
with a decoded block whose number field is empty, the execution client
reports the block-not-found error but the reward endpoint answers with the
generic 500 response, not a non-500 NotFound response; the claim is false
of the HTTP mapping. -/
theorem C7_counterexample :
    ExecutionService.GetExecutionBlockByNumber envC7.execBlocks "0x5"
      = .error "block not found on execution layer"
    ∧ (GetBlockReward envC7 "7").1
      = ⟨500, [("error", .str "failed to get execution block")]⟩
    ∧ (GetBlockReward envC7 "7").1.statusCode = 500 :=
  ⟨rfl, rfl, rfl⟩

/-- Claim C7, amended: an empty block number field in an otherwise
successful execution-layer response makes the execution client return the
distinct error value block not found on execution layer, but the reward
handler maps it, like every execution-client error, to the generic 500
response failed to get execution block. -/
theorem C7_empty_number_is_500 (env : ServiceEnv) (slotParam : String)
    (slot headSlot : Nat) (bb : BeaconBlockResponse) (n : Nat)
    (b : ExecutionBlockFullResponse)
    (hparse : parseUint64 slotParam = some slot)
    (hhead : ConsensusService.GetHeadSlot env.headers = .ok headSlot)
    (hle : ¬ slot > headSlot)
    (hbeacon : ConsensusService.GetBeaconBlockBySlot env.beaconBlocks slot
      = .ok bb)
    (hnum : bb.data.message.body.execution_payload.block_number ≠ "")
    (hnumparse : parseUint64
      bb.data.message.body.execution_payload.block_number = some n)
    (hexec : env.execBlocks (formatHex n) = .httpResponse 200 (.ok b))
    (hempty : b.result.number = "") :
    ExecutionService.GetExecutionBlockByNumber env.execBlocks (formatHex n)
      = .error "block not found on execution layer"
    ∧ (GetBlockReward env slotParam).1
      = ⟨500, [("error", .str "failed to get execution block")]⟩ := by
  have hsvc : ExecutionService.GetExecutionBlockByNumber env.execBlocks
      (formatHex n) = .error "block not found on execution layer" := by
    simp [ExecutionService.GetExecutionBlockByNumber, hexec, hempty]
  refine ⟨hsvc, ?_⟩
  simp only [GetBlockReward, hparse, hhead, hbeacon, hnumparse, hsvc,
    if_neg hle, if_neg hnum]

/-- Claim C7 witness: the amended theorem applied to the concrete world
envC7 where slot 7 maps to execution block number 5 and the execution
layer answers with an empty number field. -/
theorem C7_witness :
    ExecutionService.GetExecutionBlockByNumber envC7.execBlocks (formatHex 5)
      = .error "block not found on execution layer"
    ∧ (GetBlockReward envC7 "7").1
      = ⟨500, [("error", .str "failed to get execution block")]⟩ :=
  C7_empty_number_is_500 envC7 "7" 7 10 beaconResp 5 emptyNumBlock
    rfl rfl (by decide) rfl (by decide) rfl rfl rfl

/-- Claim C8: a slot strictly beyond the head makes both endpoints answer
the future-slot client error after the head-slot fetch alone, with no
beacon-block, execution-block or sync-committee fetch, and both endpoints
reject exactly the slots for which slot > headSlot: the bound is
numerically identical. -/
theorem C8_future_slot_bound (env : ServiceEnv) (slotParam : String)
    (slot headSlot : Nat)
    (hparse : parseUint64 slotParam = some slot)
    (hhead : ConsensusService.GetHeadSlot env.headers = .ok headSlot) :
    (slot > headSlot →
      GetBlockReward env slotParam
        = (⟨400, [("error", .str "requested slot is in the future")]⟩,
           [.getHeaders])
      ∧ GetSyncDuties env slotParam
        = (⟨400, [("error", .str "requested slot is too far in the future")]⟩,
           [.getHeaders]))
    ∧ ((GetBlockReward env slotParam).1.statusCode = 400 ↔ slot > headSlot)
    ∧ ((GetSyncDuties env slotParam).1.statusCode = 400 ↔ slot > headSlot) := by
  by_cases hf : slot > headSlot
  · refine ⟨fun _ => ?_, ?_, ?_⟩
    · constructor
      · simp [GetBlockReward, hparse, hhead, hf]
      · simp [GetSyncDuties, hparse, hhead, hf]
    · simp [GetBlockReward, hparse, hhead, hf]
    · simp [GetSyncDuties, hparse, hhead, hf]
  · refine ⟨fun habs => absurd habs hf, ?_, ?_⟩
    · simp only [GetBlockReward, hparse, hhead, if_neg hf]
      cases hB : ConsensusService.GetBeaconBlockBySlot env.beaconBlocks
          slot with
      | error e =>
        by_cases he : e = "block not found" <;> simp [he, hf]
      | ok bb =>
        by_cases hn :
            bb.data.message.body.execution_payload.block_number = ""
        · simp [hn, hf]
        · cases hp2 : parseUint64
              bb.data.message.body.execution_payload.block_number with
          | none => simp [hn, hp2, hf]
          | some bn =>
            cases hE : ExecutionService.GetExecutionBlockByNumber
                env.execBlocks (formatHex bn) with
            | error e2 => simp [hn, hp2, hE, hf]
            | ok eb =>
              cases hBF : hexToBigInt eb.result.baseFeePerGas with
              | error e3 => simp [hn, hp2, hE, hBF, hf]
              | ok fee => simp [hn, hp2, hE, hBF, hf]
    · simp only [GetSyncDuties, hparse, hhead, if_neg hf]
      cases hS : ConsensusService.GetSyncCommitteeDuties env.syncCommittees
          slot with
      | error e =>
        by_cases he : e = "sync committee duties not found for this slot" <;>
          simp [he, hf]
      | ok vs => simp [hf]

/-- Claim C8 witness: the future-slot theorem applied to a concrete world
with head slot 3 and requested slot 5, in which every upstream exchange
other than the headers fetch would fail at transport level and is never
observed. -/
theorem C8_witness :
    GetBlockReward envHead3 "5"
      = (⟨400, [("error", .str "requested slot is in the future")]⟩,
         [.getHeaders])
    ∧ GetSyncDuties envHead3 "5"
      = (⟨400, [("error", .str "requested slot is too far in the future")]⟩,
         [.getHeaders]) :=
  (C8_future_slot_bound envHead3 "5" 5 3 rfl rfl).1 (by decide)

end EthRewards
